import Mathlib

/-!
Verification development for the `pipelinescope` call-graph profiler.

The Python source is shallowly embedded: every definition below transliterates a
function or data structure from `src/pipelinescope`.  Wall-clock timestamps and
all floating-point quantities are modelled as exact rationals (`ℚ`); Python
dictionaries (which preserve insertion order) are modelled as association lists;
the global call stack is a list whose head is the top of the stack.  Python
strings are Lean `String`s, and the string-scanning helpers of the source
(`in`, `startswith`, `split`, `rsplit`) are reimplemented on `String.data`.
-/

namespace PipelineScope

/-! ### String helpers (Python `in`, `startswith`, `split`, `rsplit`) -/

/-- Python substring test `needle in hay` on character lists. -/
def containsSub (needle : List Char) : List Char → Bool
  | [] => needle.isEmpty
  | c :: t => needle.isPrefixOf (c :: t) || containsSub needle t

/-- Python `needle in hay` for strings. -/
def strContains (hay needle : String) : Bool :=
  containsSub needle.data hay.data

/-- Python `c in s` for a single character. -/
def strContainsChar (s : String) (c : Char) : Bool :=
  s.data.contains c

/-- Python `s.startswith(p)`. -/
def strStartsWith (s p : String) : Bool :=
  p.data.isPrefixOf s.data

/-- Python `s.split(sep)` for a one-character separator (always returns a
non-empty list of groups). -/
def splitOnSep (sep : Char) : List Char → List (List Char)
  | [] => [[]]
  | c :: rest =>
    match splitOnSep sep rest with
    | [] => [[]]
    | g :: gs => if c = sep then [] :: g :: gs else (c :: g) :: gs

/-- Python `s.split(sep)[0]`. -/
def splitFirst (sep : Char) (s : String) : String :=
  ⟨(splitOnSep sep s.data).headD []⟩

/-- Python `s.split(sep)[-1]`. -/
def splitLast (sep : Char) (s : String) : String :=
  ⟨(splitOnSep sep s.data).getLastD s.data⟩

/-- Python `s.rsplit(sep, 1)[0]`: the part before the last occurrence of
`sep`, or all of `s` when `sep` does not occur. -/
def rsplitBefore (sep : Char) (s : String) : String :=
  let parts := splitOnSep sep s.data
  if parts.length ≤ 1 then s else ⟨List.intercalate [sep] parts.dropLast⟩

/-- Python `s.rsplit(sep, 1)[-1]`: the part after the last occurrence of
`sep`, or all of `s` when `sep` does not occur. -/
def rsplitAfter (sep : Char) (s : String) : String :=
  ⟨(splitOnSep sep s.data).getLastD s.data⟩

/-! ### `stats.py`: module tables and `FunctionKey` -/

/-- `_STDLIB_MODULES` from `core/stats.py` (a frozenset of module base names;
modelled as the list of its elements, membership being all that is used). -/
def STDLIB_MODULES : List String :=
  ["random", "threading", "json", "csv", "os", "sys", "time", "datetime",
   "collections", "re", "math", "itertools", "functools", "io", "pathlib",
   "logging", "argparse", "subprocess", "multiprocessing", "queue", "heapq",
   "bisect", "array", "copy", "pickle", "shelve", "sqlite3", "zlib", "gzip",
   "bz2", "zipfile", "tarfile", "hashlib", "hmac", "secrets", "uuid",
   "struct", "codecs", "base64", "binascii"]

/-- `_STDLIB_INDICATORS` from `core/stats.py`. -/
def STDLIB_INDICATORS : List String :=
  ["/lib/python", "\\lib\\python", "site-packages"]

/-- `FunctionKey` (`core/stats.py`): the five identity fields.  Equality and
hash in the source are structural over exactly these fields, which is the
default structural equality here. -/
structure FunctionKey where
  module : String
  filename : String
  funcname : String
  lineno : Int
  classname : Option String := none
deriving DecidableEq, Repr

namespace FunctionKey

/-- `FunctionKey._check_stdlib` (`core/stats.py` lines 105-118). -/
def checkStdlib (k : FunctionKey) : Bool :=
  if strContainsChar k.filename '<' || strContainsChar k.filename '>' then true
  else
    let module_base := if k.module ≠ "" then splitFirst '.' k.module else ""
    if STDLIB_MODULES.contains module_base then true
    else STDLIB_INDICATORS.any (fun ind => strContains k.filename ind)

/-- `FunctionKey._stage` as computed in `__post_init__`:
`filename.rsplit(".", 1)[0].rsplit("/", 1)[-1].rsplit("\\", 1)[-1]`,
falling back to the module (or `"unknown"`) when the filename is empty. -/
def stage (k : FunctionKey) : String :=
  if k.filename ≠ "" then
    rsplitAfter '\\' (rsplitAfter '/' (rsplitBefore '.' k.filename))
  else if k.module ≠ "" then k.module else "unknown"

/-- `FunctionKey._display_name` as computed in `__post_init__`. -/
def displayName (k : FunctionKey) : String :=
  if k.checkStdlib then
    let module_name := if k.module ≠ "" then splitLast '.' k.module else "unknown"
    module_name ++ "." ++ k.funcname
  else
    match k.classname with
    | some c => k.stage ++ "." ++ c ++ "." ++ k.funcname
    | none => k.stage ++ "." ++ k.funcname

end FunctionKey

/-! ### Configuration (`core/config.py`), restricted to the fields the core
profiler and extrapolator read. -/

/-- `PipelineScopeConfig`: the fields consumed by `Profiler._should_ignore`
and `extrapolate`. -/
structure PipelineScopeConfig where
  sample_size : Int := 100
  expected_size : Int := 1000000
  ignore_modules : List String := ["venv", "site-packages", ".venv", "env"]
  collapse_stdlib : Bool := true
deriving DecidableEq, Repr

/-! ### `Profiler._should_ignore` (`core/profiler.py` lines 217-229).
The iteration over the frozenset `_ignore_set` is modelled as `List.any` over
the configured list (the frozenset only deduplicates, which does not change
whether any element matches). -/

/-- `Profiler._should_ignore`. -/
def shouldIgnore (cfg : PipelineScopeConfig) (k : FunctionKey) : Bool :=
  if cfg.collapse_stdlib &&
      (strContainsChar k.filename '<' || strContainsChar k.filename '>') then
    true
  else if strStartsWith k.module "pipelinescope." then true
  else
    cfg.ignore_modules.any fun ig =>
      strContains k.filename ig || strContains k.module ig

/-! ### Statistics records (`core/stats.py`) -/

/-- `ResourceSnapshot`: CPU/GPU metrics at a point in time. -/
structure ResourceSnapshot where
  cpu_percent : ℚ
  memory_mb : ℚ
  gpu_utilization : List ℚ := []
  gpu_memory_mb : List ℚ := []
deriving DecidableEq, Repr

/-- `FunctionStats`: per-function aggregate.  Field names and defaults follow
the dataclass; the leading-underscore bookkeeping fields are kept. -/
structure FunctionStats where
  key : FunctionKey
  call_count : Nat := 0
  total_time_ms : ℚ := 0
  self_time_ms : ℚ := 0
  first_call_time : Option ℚ := none
  avg_cpu_percent : ℚ := 0
  peak_memory_mb : ℚ := 0
  avg_gpu_utilization : List ℚ := []
  peak_gpu_memory_mb : List ℚ := []
  active_calls : Int := 0
  sample_counter : Int := 0
  resource_samples : List ResourceSnapshot := []
deriving DecidableEq, Repr

/-- `FunctionStats.avg_time_ms` (`core/stats.py` lines 162-165). -/
def FunctionStats.avg_time_ms (s : FunctionStats) : ℚ :=
  if s.call_count > 0 then s.total_time_ms / (s.call_count : ℚ) else 0

/-- `CallEdge`: caller→callee aggregate. -/
structure CallEdge where
  caller : FunctionKey
  callee : FunctionKey
  call_count : Nat := 0
  total_time_ms : ℚ := 0
deriving DecidableEq, Repr

/-- `CallEdge.avg_time_ms` (`core/stats.py` lines 177-180). -/
def CallEdge.avg_time_ms (e : CallEdge) : ℚ :=
  if e.call_count > 0 then e.total_time_ms / (e.call_count : ℚ) else 0

/-- `ProfilingResult` (`core/stats.py` lines 183-191).  The two dictionaries
are association lists in insertion order, exactly as Python dicts iterate. -/
structure ProfilingResult where
  function_stats : List (FunctionKey × FunctionStats)
  call_edges : List ((FunctionKey × FunctionKey) × CallEdge)
  total_runtime_ms : ℚ
  start_timestamp : ℚ
  end_timestamp : ℚ
deriving DecidableEq, Repr

/-! ### Association-list operations modelling Python `dict`.
A Python `dict` preserves insertion order; `d[k] = v` for a fresh key appends,
for an existing key updates in place. -/

/-- `d.get(k)` / `k in d`. -/
def lookupA {α β : Type} [DecidableEq α] : List (α × β) → α → Option β
  | [], _ => none
  | (a, b) :: t, k => if k = a then some b else lookupA t k

/-- `d.get(k, dflt)`. -/
def lookupD {α β : Type} [DecidableEq α] (l : List (α × β)) (k : α) (dflt : β) : β :=
  (lookupA l k).getD dflt

/-- `d[k] = v`: update in place when present, append when fresh. -/
def setA {α β : Type} [DecidableEq α] : List (α × β) → α → β → List (α × β)
  | [], k, v => [(k, v)]
  | (a, b) :: t, k, v => if k = a then (a, v) :: t else (a, b) :: setA t k v

/-! ### Profiler state (`core/profiler.py`) -/

/-- The mutable state owned by a `Profiler` instance (`__init__`,
lines 19-36), restricted to what the call/return machinery touches. -/
structure ProfilerState where
  config : PipelineScopeConfig
  active : Bool := false
  function_stats : List (FunctionKey × FunctionStats) := []
  call_edges : List ((FunctionKey × FunctionKey) × CallEdge) := []
  call_stack : List (FunctionKey × ℚ) := []
  start_time : Option ℚ := none
  end_time : Option ℚ := none
deriving DecidableEq, Repr

/-- A fresh `Profiler(config)`. -/
def initState (cfg : PipelineScopeConfig) : ProfilerState := { config := cfg }

/-- The per-function aggregate mutations of `Profiler._on_call`
(lines 127-137): record the first call time, bump the counters, and append a
resource snapshot on every 100th call of this function. -/
def callStats (stats : FunctionStats) (t : ℚ) (snap : ResourceSnapshot) : FunctionStats :=
  let stats :=
    if stats.first_call_time = none then { stats with first_call_time := some t }
    else stats
  let stats :=
    { stats with
      call_count := stats.call_count + 1
      active_calls := stats.active_calls + 1
      sample_counter := stats.sample_counter + 1 }
  if stats.sample_counter % 100 = 0 then
    { stats with resource_samples := stats.resource_samples ++ [snap] }
  else stats

/-- `Profiler._on_call` (lines 116-146).  The event carries the timestamp `t`
(the source reads the wall clock) and the `ResourceMonitor` snapshot `snap`
that would be captured if this call hits the 1-in-100 sampling decimation. -/
def onCall (st : ProfilerState) (f : FunctionKey) (t : ℚ)
    (snap : ResourceSnapshot) : ProfilerState :=
  if shouldIgnore st.config f then st
  else
    let stats := callStats ((lookupA st.function_stats f).getD { key := f }) t snap
    let st := { st with function_stats := setA st.function_stats f stats }
    let st :=
      match st.call_stack with
      | [] => st
      | (caller_key, _) :: _ =>
        let edge_key := (caller_key, f)
        let edges :=
          match lookupA st.call_edges edge_key with
          | none => setA st.call_edges edge_key { caller := caller_key, callee := f }
          | some _ => st.call_edges
        let edges :=
          match lookupA edges edge_key with
          | none => edges
          | some e => setA edges edge_key { e with call_count := e.call_count + 1 }
        { st with call_edges := edges }
    { st with call_stack := (f, t) :: st.call_stack }

/-- The per-function aggregate mutations of `Profiler._on_return`
(lines 159-179): add the frame's elapsed time to the inclusive total, close
the active call, fold the buffered resource samples into peak memory (most
recent sample only) and average CPU (first computation only), and clear the
per-invocation buffer in every case. -/
def retStats (stats : FunctionStats) (elapsed_ms : ℚ) : FunctionStats :=
  let stats := { stats with total_time_ms := stats.total_time_ms + elapsed_ms }
  let stats := { stats with active_calls := stats.active_calls - 1 }
  let stats :=
    match stats.resource_samples.getLast? with
    | none => stats
    | some snapshot =>
      let stats :=
        { stats with peak_memory_mb := max stats.peak_memory_mb snapshot.memory_mb }
      if stats.avg_cpu_percent = 0 then
        { stats with
          avg_cpu_percent :=
            (stats.resource_samples.map (fun s : ResourceSnapshot => s.cpu_percent)).sum /
              (stats.resource_samples.length : ℚ) }
      else stats
  { stats with resource_samples := [] }

/-- `Profiler._on_return` (lines 148-179).  The frame argument of the source
is unused for identity: the handler pops whatever is on top of the stack. -/
def onReturn (st : ProfilerState) (t : ℚ) : ProfilerState :=
  match st.call_stack with
  | [] => st
  | (func_key, start_time) :: rest =>
    let st := { st with call_stack := rest }
    match lookupA st.function_stats func_key with
    | none => st
    | some stats =>
      let elapsed_ms := (t - start_time) * 1000
      let st :=
        match rest with
        | [] => st
        | (caller_key, _) :: _ =>
          let edge_key := (caller_key, func_key)
          match lookupA st.call_edges edge_key with
          | none => st
          | some e =>
            let e := { e with total_time_ms := e.total_time_ms + elapsed_ms }
            { st with call_edges := setA st.call_edges edge_key e }
      { st with function_stats := setA st.function_stats func_key (retStats stats elapsed_ms) }

/-- Python `max(xs, default=d)`: `d` on an empty sequence, the true maximum
otherwise. -/
def pymax (l : List ℚ) (d : ℚ) : ℚ :=
  match l with
  | [] => d
  | x :: xs => xs.foldl max x

/-- `Profiler._finalize_resource_metrics` (lines 79-107) applied to one
function's aggregate: derive per-device GPU averages and peaks from the
retained sample buffer when the last snapshot reports any GPU. -/
def finalizeStats (stats : FunctionStats) : FunctionStats :=
  match stats.resource_samples.getLast? with
  | none => stats
  | some snapshot =>
    if snapshot.gpu_utilization.isEmpty then stats
    else
      let num_gpus := snapshot.gpu_utilization.length
      let samples := stats.resource_samples
      { stats with
        avg_gpu_utilization :=
          (List.range num_gpus).map fun i =>
            (samples.filterMap (fun s => s.gpu_utilization.get? i)).sum /
              (samples.length : ℚ)
        peak_gpu_memory_mb :=
          (List.range num_gpus).map fun i =>
            pymax (samples.filterMap (fun s => s.gpu_memory_mb.get? i)) 0 }

/-- The whole `_finalize_resource_metrics` pass over the aggregate map. -/
def finalizeResourceMetrics (fs : List (FunctionKey × FunctionStats)) :
    List (FunctionKey × FunctionStats) :=
  fs.map fun p => (p.1, finalizeStats p.2)

/-- `Profiler.start` (lines 38-45): a no-op while active; otherwise marks the
profiler active and records the start wall-clock time (`sys.setprofile`
installation is host-runtime I/O outside the state). -/
def start (st : ProfilerState) (t : ℚ) : ProfilerState :=
  if st.active then st
  else { st with active := true, start_time := some t }

/-- Build the `caller_children` map of `Profiler.stop` (lines 57-60):
fold over the edge table accumulating, per caller, the sum of edge times. -/
def callerChildren (edges : List ((FunctionKey × FunctionKey) × CallEdge)) :
    List (FunctionKey × ℚ) :=
  edges.foldl
    (fun acc p => setA acc p.1.1 (lookupD acc p.1.1 0 + p.2.total_time_ms)) []

/-- `Profiler.stop` (lines 47-77): `none` while inactive; otherwise finalize
GPU metrics, derive every function's exclusive time from the edge table,
emit the result snapshot, and clear all session state. -/
def stop (st : ProfilerState) (t : ℚ) : ProfilerState × Option ProfilingResult :=
  if !st.active then (st, none)
  else
    let st := { st with active := false, end_time := some t }
    let fs := finalizeResourceMetrics st.function_stats
    let cc := callerChildren st.call_edges
    let fs := fs.map fun p =>
      (p.1, { p.2 with self_time_ms := p.2.total_time_ms - lookupD cc p.1 0 })
    let result : ProfilingResult :=
      { function_stats := fs
        call_edges := st.call_edges
        total_runtime_ms := (t - st.start_time.getD 0) * 1000
        start_timestamp := st.start_time.getD 0
        end_timestamp := t }
    ({ st with function_stats := [], call_edges := [], call_stack := [] },
     some result)

/-- One `sys.setprofile` event as delivered by the host runtime: a call event
carries the resolved identity, the wall-clock time, and the snapshot the
resource monitor would return; a return event carries only the time (the
source handler ignores the returning frame's identity). -/
inductive TraceEvent where
  | call (f : FunctionKey) (t : ℚ) (snap : ResourceSnapshot)
  | ret (t : ℚ)
deriving Repr

/-- `Profiler._profile_callback` (lines 109-114). -/
def stepEvent (st : ProfilerState) : TraceEvent → ProfilerState
  | .call f t snap => onCall st f t snap
  | .ret t => onReturn st t

/-- Deliver a sequence of call/return events to the profiler. -/
def runEvents (st : ProfilerState) (evs : List TraceEvent) : ProfilerState :=
  evs.foldl stepEvent st

/-! ### Extrapolation (`core/extrapolation.py`) -/

/-- Python `int(x)` on a float: truncation toward zero. -/
def pyInt (x : ℚ) : Int :=
  if x < 0 then ⌈x⌉ else ⌊x⌋

/-- `ExtrapolatedStats` (`core/extrapolation.py` lines 12-26). -/
structure ExtrapolatedStats where
  observed_calls : Nat
  observed_time_ms : ℚ
  observed_self_time_ms : ℚ
  projected_calls : Int
  projected_time_ms : ℚ
  projected_self_time_ms : ℚ
  avg_cpu_percent : ℚ
  peak_memory_mb : ℚ
  avg_gpu_utilization : List ℚ
  peak_gpu_memory_mb : List ℚ
  percentage_of_total : ℚ
deriving DecidableEq, Repr

/-- `ExtrapolatedStats.__init__(original_stats, scale_factor)`. -/
def mkExtrapolatedStats (s : FunctionStats) (scale_factor : ℚ) : ExtrapolatedStats :=
  { observed_calls := s.call_count
    observed_time_ms := s.total_time_ms
    observed_self_time_ms := s.self_time_ms
    projected_calls := pyInt ((s.call_count : ℚ) * scale_factor)
    projected_time_ms := s.total_time_ms * scale_factor
    projected_self_time_ms := s.self_time_ms * scale_factor
    avg_cpu_percent := s.avg_cpu_percent
    peak_memory_mb := s.peak_memory_mb
    avg_gpu_utilization := s.avg_gpu_utilization
    peak_gpu_memory_mb := s.peak_gpu_memory_mb
    percentage_of_total := 0 }

/-- The scale factor of `extrapolate` (line 42). -/
def scaleFactor (cfg : PipelineScopeConfig) : ℚ :=
  if cfg.sample_size > 0 then (cfg.expected_size : ℚ) / (cfg.sample_size : ℚ)
  else 1

/-- `extrapolate` (lines 29-56), taking the result's `function_stats`
dictionary in iteration order. -/
def extrapolate (function_stats : List (FunctionKey × FunctionStats))
    (cfg : PipelineScopeConfig) : List (FunctionKey × ExtrapolatedStats) :=
  let scale_factor := scaleFactor cfg
  let extrapolated := function_stats.map fun p =>
    (p.1, mkExtrapolatedStats p.2 scale_factor)
  let total_projected_self_time : ℚ :=
    (extrapolated.map fun p => p.2.projected_self_time_ms).sum
  if total_projected_self_time > 0 then
    extrapolated.map fun p =>
      (p.1,
       { p.2 with percentage_of_total :=
          p.2.projected_self_time_ms / total_projected_self_time * 100 })
  else extrapolated

/-! ### Hotspot extraction (`reporting/analyzer.py`) -/

/-- `_should_include_function` (lines 14-21).  Python
`not funcname or not funcname.strip()` holds exactly when the name consists
only of whitespace (possibly none). -/
def shouldIncludeFunction (k : FunctionKey) : Bool :=
  if k.funcname.data.all (fun c => c.isWhitespace) then false
  else if strStartsWith k.funcname "<" then false
  else if k.checkStdlib then false
  else true

/-- `HotspotFunction` (lines 24-67), restricted to the fields the extraction
algorithm reads or that the claims inspect. -/
structure HotspotFunction where
  func_key : FunctionKey
  display_name : String
  call_count : Nat
  total_time_ms : ℚ
  self_time_ms : ℚ
  projected_calls : Int
  projected_self_time_ms : ℚ
  percentage_of_total : ℚ
deriving DecidableEq, Repr

/-- `HotspotFunction.__init__` (lines 27-55). -/
def mkHotspot (k : FunctionKey) (s : FunctionStats) (e : ExtrapolatedStats) :
    HotspotFunction :=
  { func_key := k
    display_name :=
      match k.classname with
      | some c => k.stage ++ "." ++ c ++ "." ++ k.funcname
      | none => k.stage ++ "." ++ k.funcname
    call_count := s.call_count
    total_time_ms := s.total_time_ms
    self_time_ms := s.self_time_ms
    projected_calls := e.projected_calls
    projected_self_time_ms := e.projected_self_time_ms
    percentage_of_total := e.percentage_of_total }

/-- `heapq.heappush` on entries keyed by the first component, modelling the
heap's content as a list kept ascending by key; `heapq` breaks key ties by
the next tuple component (`id(hotspot)`, a runtime-dependent integer), which
this model resolves by insertion order. -/
def heapPush (entry : ℚ × HotspotFunction) :
    List (ℚ × HotspotFunction) → List (ℚ × HotspotFunction)
  | [] => [entry]
  | x :: xs => if entry.1 < x.1 then entry :: x :: xs else x :: heapPush entry xs

/-- `heapq.heappop`: removes the minimum-key entry (the head of the
ascending list). -/
def heapPop (heap : List (ℚ × HotspotFunction)) : List (ℚ × HotspotFunction) :=
  heap.tail

/-- Stable insertion for descending order by `projected_self_time_ms`. -/
def insertDesc (h : HotspotFunction) :
    List HotspotFunction → List HotspotFunction
  | [] => [h]
  | x :: xs =>
    if x.projected_self_time_ms < h.projected_self_time_ms then h :: x :: xs
    else x :: insertDesc h xs

/-- Python `sorted(..., key=projected_self_time_ms, reverse=True)` (stable). -/
def sortDesc (l : List HotspotFunction) : List HotspotFunction :=
  l.foldr insertDesc []

/-- `extract_hotspots` (lines 134-152): filter, push `(-projected_self_time,
hotspot)` onto a heap popped down to `top_n` entries, then sort the retained
hotspots descending by projected self time. -/
def extract_hotspots (function_stats : List (FunctionKey × FunctionStats))
    (extrapolated_stats : List (FunctionKey × ExtrapolatedStats))
    (top_n : Nat := 5) : List HotspotFunction :=
  let heap := function_stats.foldl
    (fun heap p =>
      match lookupA extrapolated_stats p.1 with
      | none => heap
      | some e =>
        if !shouldIncludeFunction p.1 then heap
        else
          let hotspot := mkHotspot p.1 p.2 e
          if hotspot.display_name ≠ "" then
            let heap := heapPush (-hotspot.projected_self_time_ms, hotspot) heap
            if heap.length > top_n then heapPop heap else heap
          else heap)
    []
  sortDesc (heap.map fun x => x.2)

/-! ### Concrete instances used by witnesses and counterexamples -/

/-- Sum of edge `total_time_ms` over the edges whose caller is `f` (the
right-hand side of the exclusive-time equation). -/
def edgeCallerSum (edges : List ((FunctionKey × FunctionKey) × CallEdge))
    (f : FunctionKey) : ℚ :=
  ((edges.filter fun p => p.1.1 = f).map fun p => p.2.total_time_ms).sum

/-- A configuration with stdlib collapsing on and no ignore substrings. -/
def cfgX : PipelineScopeConfig :=
  { ignore_modules := [], collapse_stdlib := true }

/-- A user-code function key (not ignored under `cfgX`). -/
def keyA : FunctionKey := { module := "app", filename := "app.py", funcname := "a", lineno := 1 }

/-- A second user-code function key. -/
def keyB : FunctionKey := { module := "app", filename := "app.py", funcname := "b", lineno := 5 }

/-- A key inside the profiler's own package: always ignored. -/
def keyI : FunctionKey :=
  { module := "pipelinescope.core.profiler", filename := "profiler.py", funcname := "i", lineno := 2 }

/-- A key whose module base is the stdlib module `json` but whose filename has
no angle bracket and no stdlib path indicator. -/
def jsonKey : FunctionKey := { module := "json", filename := "a.py", funcname := "loads", lineno := 1 }

/-- An all-zero resource snapshot. -/
def snap0 : ResourceSnapshot := { cpu_percent := 0, memory_mb := 0 }

/-- Trace: `a` is called at time 0; at time 1 it calls the ignored `keyI`,
which returns at time 2; `a` returns at time 3. -/
def run1 : ProfilerState :=
  runEvents (start (initState cfgX) 0)
    [.call keyA 0 snap0, .call keyI 1 snap0, .ret 2, .ret 3]

/-- The same trace with the ignored call and its return removed. -/
def run2 : ProfilerState :=
  runEvents (start (initState cfgX) 0) [.call keyA 0 snap0, .ret 3]

/-- A user-code key for the deep-recursion resource trace. -/
def keyF : FunctionKey := { module := "app", filename := "app.py", funcname := "f", lineno := 9 }

/-- Snapshot delivered at the `i`-th call of the deep-recursion trace: the
1-in-100 decimation retains the snapshots of calls 100 (memory 50 MB) and
200 (memory 10 MB). -/
def snapOf (i : Nat) : ResourceSnapshot :=
  { cpu_percent := 0, memory_mb := if i = 99 then 50 else if i = 199 then 10 else 0 }

/-- Trace: 200 nested (recursive) calls of `keyF` with no intervening
return, so the per-invocation sample buffer holds the snapshots of calls
100 and 200 when the first return arrives. -/
def run5 : ProfilerState :=
  runEvents (start (initState cfgX) 0)
    ((List.range 200).map fun (i : Nat) => .call keyF ((i : ℚ)) (snapOf i))

/-- `run5` after the first return event, at time 200. -/
def run5r : ProfilerState := onReturn run5 200

/-- The profiler state reached after the first 100 calls of the
deep-recursion trace (the intermediate checkpoint used to evaluate `run5`
without exceeding the evaluator's recursion budget). -/
def mid5 : ProfilerState :=
  { config := cfgX
    active := true
    function_stats :=
      [(keyF,
        { key := keyF, call_count := 100, total_time_ms := 0, self_time_ms := 0,
          first_call_time := some 0, avg_cpu_percent := 0, peak_memory_mb := 0,
          avg_gpu_utilization := [], peak_gpu_memory_mb := [], active_calls := 100,
          sample_counter := 100,
          resource_samples := [{ cpu_percent := 0, memory_mb := 50 }] })]
    call_edges :=
      [((keyF, keyF), { caller := keyF, callee := keyF, call_count := 99, total_time_ms := 0 })]
    call_stack := (List.range 100).reverse.map fun i => (keyF, (i : ℚ))
    start_time := some 0
    end_time := none }

/-- The second hundred call events of the deep-recursion trace. -/
def chunk2 : List TraceEvent :=
  (List.range 100).map fun (i : Nat) =>
    TraceEvent.call keyF (((100 + i : Nat) : ℚ)) (snapOf (100 + i))

/-- Profiler state for the C1 witness: an active session where `a` was
called twice (3000 ms inclusive) and called `b` once (1000 ms). -/
def stW : ProfilerState :=
  { config := cfgX
    active := true
    function_stats :=
      [(keyA, { key := keyA, call_count := 2, total_time_ms := 3000 }),
       (keyB, { key := keyB, call_count := 1, total_time_ms := 1000 })]
    call_edges :=
      [((keyA, keyB), { caller := keyA, callee := keyB, call_count := 1, total_time_ms := 1000 })]
    call_stack := []
    start_time := some 0 }

/-- The result snapshot `stop` produces from `stW` at time 10. -/
def resW : ProfilingResult :=
  match (stop stW 10).2 with
  | some r => r
  | none => ⟨[], [], 0, 0, 0⟩

/-- The finalized aggregate of `keyA` inside `resW`. -/
def sWA : FunctionStats := (lookupA resW.function_stats keyA).getD { key := keyA }

/-- Configuration and input for the C6 witness: the spec's extrapolation
example (`sample_size = 100`, `expected_size = 10000`). -/
def c6Cfg : PipelineScopeConfig :=
  { sample_size := 100, expected_size := 10000, ignore_modules := [], collapse_stdlib := true }

/-- One observed function with 100 calls for the C6 witness. -/
def c6Fs : List (FunctionKey × FunctionStats) :=
  [(keyA, { key := keyA, call_count := 100, total_time_ms := 500, self_time_ms := 500 })]

/-- The `i`-th of ten synthetic user-code functions for the hotspot scenario
(the spec's own test input: ten functions with strictly decreasing
self-time). -/
def kTest (i : Nat) : FunctionKey :=
  { module := "test", filename := "test.py", funcname := "func" ++ toString i, lineno := (i : Int) }

/-- Stats of the `i`-th synthetic function: self time `100 * (10 - i)` ms,
strictly decreasing in `i`. -/
def sTest (i : Nat) : FunctionStats :=
  { key := kTest i, call_count := 10,
    total_time_ms := 100 * (10 - (i : ℚ)), self_time_ms := 100 * (10 - (i : ℚ)) }

/-- The ten synthetic functions, in insertion order. -/
def fsTest : List (FunctionKey × FunctionStats) :=
  (List.range 10).map fun i => (kTest i, sTest i)

/-- Extrapolation of the ten synthetic functions at scale factor 1. -/
def exTest : List (FunctionKey × ExtrapolatedStats) :=
  extrapolate fsTest { sample_size := 100, expected_size := 100 }

/-- No trace of `f` anywhere in the tracer's structures: not a key of the
aggregate map, not an endpoint of any edge, not on the call stack. -/
def NoTrace (st : ProfilerState) (f : FunctionKey) : Prop :=
  lookupA st.function_stats f = none ∧
  (∀ e ∈ st.call_edges, e.1.1 ≠ f ∧ e.1.2 ≠ f) ∧
  (∀ fr ∈ st.call_stack, fr.1 ≠ f)

/-- The recorded call count of `k` (0 when `k` is untracked). -/
def countOf (fs : List (FunctionKey × FunctionStats)) (k : FunctionKey) : Nat :=
  ((lookupA fs k).getD { key := k }).call_count

/-- The recorded inclusive time of `k` (0 when `k` is untracked). -/
def totalOf (fs : List (FunctionKey × FunctionStats)) (k : FunctionKey) : ℚ :=
  ((lookupA fs k).getD { key := k }).total_time_ms

/-- The event stream of a self-recursive function applied at depth `n`:
`n + 1` nested call events (the `i`-th at time `c i`), then the matching
`n + 1` return events innermost-first (the frame opened at `c i` closing at
`r i`). -/
def factEvents (kf : FunctionKey) (n : Nat) (c r : Nat → ℚ)
    (snap : ResourceSnapshot) : List TraceEvent :=
  ((List.range (n + 1)).map fun i => TraceEvent.call kf (c i) snap) ++
    ((List.range (n + 1)).reverse.map fun i => TraceEvent.ret (r i))

/-- Total projected self time of an extrapolated map (the denominator of
`percentage_of_total`). -/
def totalProjSelf (l : List (FunctionKey × ExtrapolatedStats)) : ℚ :=
  (l.map fun p => p.2.projected_self_time_ms).sum

/-- The percentage pass of `extrapolate` (lines 51-55), factored out. -/
def pctUpdate (l : List (FunctionKey × ExtrapolatedStats)) (T : ℚ) :
    List (FunctionKey × ExtrapolatedStats) :=
  l.map fun p =>
    (p.1, { p.2 with percentage_of_total := p.2.projected_self_time_ms / T * 100 })

/- Batteries marks the rational-arithmetic primitives `@[irreducible]`, which
blocks `decide`'s elaborator-side evaluation of concrete profiler runs; the
kernel is free to unfold them either way.  Restore the default transparency
so witnesses and counterexamples evaluate by `decide`. -/
attribute [local semireducible] Rat.add Rat.sub Rat.mul Rat.inv Rat.ofScientific

/-! ## Association-list lemmas -/

theorem lookupA_setA_self {α β : Type} [DecidableEq α] (l : List (α × β)) (k : α) (v : β) :
    lookupA (setA l k v) k = some v := by
  induction l with
  | nil => simp [setA, lookupA]
  | cons p t ih =>
    by_cases h : k = p.1
    · simp [setA, lookupA, h]
    · simp [setA, lookupA, h, ih]

theorem lookupA_setA_ne {α β : Type} [DecidableEq α] (l : List (α × β)) (k a : α) (v : β)
    (h : k ≠ a) : lookupA (setA l a v) k = lookupA l k := by
  induction l with
  | nil => simp [setA, lookupA, h]
  | cons p t ih =>
    by_cases ha : a = p.1
    · subst ha
      simp [setA, lookupA, h, ih]
    · simp [setA, lookupA, ha, ih]

theorem mem_setA {α β : Type} [DecidableEq α] (l : List (α × β)) (k : α) (v : β)
    (p : α × β) (h : p ∈ setA l k v) : p = (k, v) ∨ p ∈ l := by
  induction l with
  | nil => simpa [setA] using h
  | cons q t ih =>
    by_cases hq : k = q.1
    · rw [setA, if_pos hq, List.mem_cons] at h
      rcases h with h1 | h1
      · left
        rw [h1, hq]
      · right
        exact List.mem_cons_of_mem _ h1
    · rw [setA, if_neg hq, List.mem_cons] at h
      rcases h with h1 | h1
      · right
        exact h1 ▸ List.mem_cons_self _ _
      · rcases ih h1 with h2 | h2
        · left
          exact h2
        · right
          exact List.mem_cons_of_mem _ h2

theorem lookupA_map_entry {α β γ : Type} [DecidableEq α] (l : List (α × β))
    (g : α × β → γ) (k : α) :
    lookupA (l.map fun p => (p.1, g p)) k = (lookupA l k).map fun b => g (k, b) := by
  induction l with
  | nil => simp [lookupA]
  | cons p t ih =>
    by_cases h : k = p.1
    · simp [lookupA, h]
    · simp [lookupA, h, ih]

/-! ## C10: derived average time is total and never divides by zero -/

/-- C10.  For every `FunctionStats` and every `CallEdge`, the derived
`avg_time_ms` is a total function: it equals `total_time_ms / call_count`
when `call_count > 0` (equivalently, multiplying back by the count recovers
the total), and it equals `0` when `call_count = 0`; no division-by-zero
error can occur. -/
theorem avg_time_ms_total :
    (∀ s : FunctionStats,
      (s.call_count = 0 → s.avg_time_ms = 0) ∧
      (0 < s.call_count → s.avg_time_ms = s.total_time_ms / (s.call_count : ℚ) ∧
        s.avg_time_ms * (s.call_count : ℚ) = s.total_time_ms)) ∧
    (∀ e : CallEdge,
      (e.call_count = 0 → e.avg_time_ms = 0) ∧
      (0 < e.call_count → e.avg_time_ms = e.total_time_ms / (e.call_count : ℚ) ∧
        e.avg_time_ms * (e.call_count : ℚ) = e.total_time_ms)) := by
  constructor
  · intro s
    constructor
    · intro h
      simp [FunctionStats.avg_time_ms, h]
    · intro h
      have hne : ((s.call_count : ℚ)) ≠ 0 := Nat.cast_ne_zero.mpr h.ne'
      constructor
      · simp [FunctionStats.avg_time_ms, h]
      · simp [FunctionStats.avg_time_ms, h, div_mul_cancel₀ _ hne]
  · intro e
    constructor
    · intro h
      simp [CallEdge.avg_time_ms, h]
    · intro h
      have hne : ((e.call_count : ℚ)) ≠ 0 := Nat.cast_ne_zero.mpr h.ne'
      constructor
      · simp [CallEdge.avg_time_ms, h]
      · simp [CallEdge.avg_time_ms, h, div_mul_cancel₀ _ hne]

/-! ## C8: start/stop lifecycle -/

/-- C8.  `stop()` on an inactive profiler returns no result and leaves the
state unchanged; `start()` on an already-active profiler is a no-op. -/
theorem lifecycle_inactive_stop_active_start :
    (∀ (st : ProfilerState) (t : ℚ), st.active = false → stop st t = (st, none)) ∧
    (∀ (st : ProfilerState) (t : ℚ), st.active = true → start st t = st) := by
  constructor
  · intro st t h
    simp [stop, h]
  · intro st t h
    simp [start, h]

/-! ## C6/C7: extrapolation -/

theorem pyInt_eq_floor (x : ℚ) (h : 0 ≤ x) : pyInt x = ⌊x⌋ := by
  simp [pyInt, not_lt.mpr h]

theorem scaleFactor_nonneg (cfg : PipelineScopeConfig) (hexp : 0 ≤ cfg.expected_size) :
    0 ≤ scaleFactor cfg := by
  rw [scaleFactor]
  split
  · rename_i hs
    exact div_nonneg (by exact_mod_cast hexp) (by positivity)
  · norm_num

/-- Every entry of `extrapolate`'s output comes from an input entry under the
same key with all fields other than `percentage_of_total` exactly those of
`ExtrapolatedStats.__init__` at the session scale factor. -/
theorem extrapolate_fields (fs : List (FunctionKey × FunctionStats))
    (cfg : PipelineScopeConfig) (f : FunctionKey) (e : ExtrapolatedStats)
    (he : lookupA (extrapolate fs cfg) f = some e) :
    ∃ s, lookupA fs f = some s ∧
      e.observed_calls = s.call_count ∧
      e.observed_time_ms = s.total_time_ms ∧
      e.observed_self_time_ms = s.self_time_ms ∧
      e.projected_calls = pyInt ((s.call_count : ℚ) * scaleFactor cfg) ∧
      e.projected_time_ms = s.total_time_ms * scaleFactor cfg ∧
      e.projected_self_time_ms = s.self_time_ms * scaleFactor cfg ∧
      e.avg_cpu_percent = s.avg_cpu_percent ∧
      e.peak_memory_mb = s.peak_memory_mb ∧
      e.avg_gpu_utilization = s.avg_gpu_utilization ∧
      e.peak_gpu_memory_mb = s.peak_gpu_memory_mb := by
  rw [extrapolate] at he
  simp only at he
  split at he
  · rw [lookupA_map_entry, lookupA_map_entry] at he
    rcases hfs : lookupA fs f with _ | s
    · rw [hfs] at he
      simp at he
    · rw [hfs] at he
      simp only [Option.map_some', Option.some.injEq] at he
      refine ⟨s, rfl, ?_⟩
      rw [← he]
      simp [mkExtrapolatedStats]
  · rw [lookupA_map_entry] at he
    rcases hfs : lookupA fs f with _ | s
    · rw [hfs] at he
      simp at he
    · rw [hfs] at he
      simp only [Option.map_some', Option.some.injEq] at he
      refine ⟨s, rfl, ?_⟩
      rw [← he]
      simp [mkExtrapolatedStats]

/-- C6.  `extrapolate` scales linearly: the scale factor is
`expected_size / sample_size` for positive sample sizes and `1` otherwise
(no division error); every output entry has `projected_calls` equal to the
floor of the observed call count times the scale factor, projected times
equal to the observed times times the scale factor, and resource metrics
passed through unchanged.  The hypothesis `0 ≤ expected_size` is the
configuration contract (`expected_size: int > 0`); Python `int()` truncation
agrees with the floor on the nonnegative products it is applied to. -/
theorem extrapolate_linear_scaling (fs : List (FunctionKey × FunctionStats))
    (cfg : PipelineScopeConfig) (hexp : 0 ≤ cfg.expected_size) :
    (0 < cfg.sample_size →
      scaleFactor cfg = (cfg.expected_size : ℚ) / (cfg.sample_size : ℚ)) ∧
    (cfg.sample_size ≤ 0 → scaleFactor cfg = 1) ∧
    (∀ f e, lookupA (extrapolate fs cfg) f = some e →
      ∃ s, lookupA fs f = some s ∧
        e.projected_calls = ⌊(s.call_count : ℚ) * scaleFactor cfg⌋ ∧
        e.projected_time_ms = s.total_time_ms * scaleFactor cfg ∧
        e.projected_self_time_ms = s.self_time_ms * scaleFactor cfg ∧
        e.avg_cpu_percent = s.avg_cpu_percent ∧
        e.peak_memory_mb = s.peak_memory_mb ∧
        e.avg_gpu_utilization = s.avg_gpu_utilization ∧
        e.peak_gpu_memory_mb = s.peak_gpu_memory_mb) := by
  refine ⟨fun h => by simp [scaleFactor, h], fun h => by simp [scaleFactor, not_lt.mpr h], ?_⟩
  intro f e he
  obtain ⟨s, hs, _, _, _, hc, ht, hst, hcpu, hmem, hgpu, hgmem⟩ :=
    extrapolate_fields fs cfg f e he
  refine ⟨s, hs, ?_, ht, hst, hcpu, hmem, hgpu, hgmem⟩
  rw [hc, pyInt_eq_floor]
  exact mul_nonneg (by positivity) (scaleFactor_nonneg cfg hexp)

/-- Witness for C6: the spec's own example, `sample_size = 100`,
`expected_size = 10000`, one observed function with 100 calls, projected to
exactly 10000 calls; `sample_size = 0` would fall back to scale factor 1. -/
theorem extrapolate_linear_scaling_witness :
    (0 < c6Cfg.sample_size →
      scaleFactor c6Cfg = (c6Cfg.expected_size : ℚ) / (c6Cfg.sample_size : ℚ)) ∧
    (c6Cfg.sample_size ≤ 0 → scaleFactor c6Cfg = 1) ∧
    (∀ f e, lookupA (extrapolate c6Fs c6Cfg) f = some e →
      ∃ s, lookupA c6Fs f = some s ∧
        e.projected_calls = ⌊(s.call_count : ℚ) * scaleFactor c6Cfg⌋ ∧
        e.projected_time_ms = s.total_time_ms * scaleFactor c6Cfg ∧
        e.projected_self_time_ms = s.self_time_ms * scaleFactor c6Cfg ∧
        e.avg_cpu_percent = s.avg_cpu_percent ∧
        e.peak_memory_mb = s.peak_memory_mb ∧
        e.avg_gpu_utilization = s.avg_gpu_utilization ∧
        e.peak_gpu_memory_mb = s.peak_gpu_memory_mb) :=
  extrapolate_linear_scaling c6Fs c6Cfg (by norm_num [c6Cfg])

theorem sum_map_div_mul (l : List ℚ) (T c : ℚ) :
    (l.map fun x => x / T * c).sum = l.sum / T * c := by
  induction l with
  | nil => simp
  | cons x t ih =>
    simp only [List.map_cons, List.sum_cons, ih]
    ring

theorem extrapolate_eq (fs : List (FunctionKey × FunctionStats))
    (cfg : PipelineScopeConfig) :
    extrapolate fs cfg =
      if 0 < totalProjSelf (fs.map fun p => (p.1, mkExtrapolatedStats p.2 (scaleFactor cfg))) then
        pctUpdate (fs.map fun p => (p.1, mkExtrapolatedStats p.2 (scaleFactor cfg)))
          (totalProjSelf (fs.map fun p => (p.1, mkExtrapolatedStats p.2 (scaleFactor cfg))))
      else fs.map fun p => (p.1, mkExtrapolatedStats p.2 (scaleFactor cfg)) := rfl

theorem totalProjSelf_pctUpdate (l : List (FunctionKey × ExtrapolatedStats)) (T : ℚ) :
    totalProjSelf (pctUpdate l T) = totalProjSelf l := by
  induction l with
  | nil => rfl
  | cons p t ih =>
    simp only [totalProjSelf, pctUpdate, List.map_cons, List.sum_cons] at *
    rw [ih]

theorem pct_sum_pctUpdate (l : List (FunctionKey × ExtrapolatedStats)) (T : ℚ) :
    ((pctUpdate l T).map fun p => p.2.percentage_of_total).sum =
      totalProjSelf l / T * 100 := by
  induction l with
  | nil => simp [pctUpdate, totalProjSelf]
  | cons p t ih =>
    simp only [pctUpdate, List.map_cons, List.sum_cons] at *
    rw [ih]
    simp only [totalProjSelf, List.map_cons, List.sum_cons]
    ring

/-- C7.  After `extrapolate`, when the total projected self time is positive
every function's `percentage_of_total` is its projected self time divided by
that total times 100, and the percentages sum to exactly 100; when the total
is zero every `percentage_of_total` is 0. -/
theorem extrapolate_percentage (fs : List (FunctionKey × FunctionStats))
    (cfg : PipelineScopeConfig) :
    (0 < totalProjSelf (extrapolate fs cfg) →
      (∀ p ∈ extrapolate fs cfg,
        p.2.percentage_of_total =
          p.2.projected_self_time_ms / totalProjSelf (extrapolate fs cfg) * 100) ∧
      ((extrapolate fs cfg).map fun p => p.2.percentage_of_total).sum = 100) ∧
    (totalProjSelf (extrapolate fs cfg) = 0 →
      ∀ p ∈ extrapolate fs cfg, p.2.percentage_of_total = 0) := by
  rw [extrapolate_eq]
  split
  · rename_i hT
    rw [totalProjSelf_pctUpdate]
    constructor
    · intro _
      constructor
      · intro p hp
        rw [pctUpdate, List.mem_map] at hp
        obtain ⟨q, _, hq⟩ := hp
        rw [← hq]
      · rw [pct_sum_pctUpdate, div_self hT.ne', one_mul]
    · intro h0
      exact absurd (h0 ▸ hT) (lt_irrefl 0)
  · rename_i hT
    rw [not_lt] at hT
    constructor
    · intro hpos
      exact absurd hpos (not_lt.mpr hT)
    · intro _ p hp
      rw [List.mem_map] at hp
      obtain ⟨q, _, hq⟩ := hp
      rw [← hq]
      simp [mkExtrapolatedStats]

/-! ## C1: exclusive time at stop() -/

theorem lookupD_setA_self (l : List (FunctionKey × ℚ)) (k : FunctionKey) (v : ℚ) :
    lookupD (setA l k v) k 0 = v := by
  rw [lookupD, lookupA_setA_self]
  rfl

theorem lookupD_setA_ne (l : List (FunctionKey × ℚ)) (k a : FunctionKey) (v : ℚ)
    (h : k ≠ a) : lookupD (setA l a v) k 0 = lookupD l k 0 := by
  rw [lookupD, lookupA_setA_ne _ _ _ _ h]
  rfl

theorem edgeCallerSum_cons (e : (FunctionKey × FunctionKey) × CallEdge)
    (es : List ((FunctionKey × FunctionKey) × CallEdge)) (f : FunctionKey) :
    edgeCallerSum (e :: es) f =
      (if e.1.1 = f then e.2.total_time_ms else 0) + edgeCallerSum es f := by
  by_cases h : e.1.1 = f
  · simp [edgeCallerSum, List.filter_cons, h]
  · simp [edgeCallerSum, List.filter_cons, h]

theorem lookupD_foldl_edges (edges : List ((FunctionKey × FunctionKey) × CallEdge))
    (acc : List (FunctionKey × ℚ)) (f : FunctionKey) :
    lookupD
      (edges.foldl
        (fun acc p => setA acc p.1.1 (lookupD acc p.1.1 0 + p.2.total_time_ms)) acc) f 0 =
    lookupD acc f 0 + edgeCallerSum edges f := by
  induction edges generalizing acc with
  | nil => simp [edgeCallerSum, lookupD]
  | cons e es ih =>
    rw [List.foldl_cons, ih, edgeCallerSum_cons]
    by_cases h : e.1.1 = f
    · rw [if_pos h, ← h, lookupD_setA_self, h, add_assoc]
    · rw [if_neg h, lookupD_setA_ne _ _ _ _ (fun hf => h hf.symm), zero_add]

theorem callerChildren_lookup (edges : List ((FunctionKey × FunctionKey) × CallEdge))
    (f : FunctionKey) :
    lookupD (callerChildren edges) f 0 = edgeCallerSum edges f := by
  rw [callerChildren, lookupD_foldl_edges]
  simp [lookupD, lookupA]

/-- C1.  In the result produced by `stop()`, every function's finalized
`self_time_ms` equals its `total_time_ms` minus the sum of `total_time_ms`
over the call edges whose caller it is (zero when it has no outgoing
edges). -/
theorem stop_self_time (st : ProfilerState) (t : ℚ) (res : ProfilingResult)
    (hres : (stop st t).2 = some res) (f : FunctionKey) (s : FunctionStats)
    (hs : lookupA res.function_stats f = some s) :
    s.self_time_ms = s.total_time_ms - edgeCallerSum res.call_edges f := by
  by_cases hact : st.active
  · rw [stop] at hres
    rw [if_neg (by simp [hact])] at hres
    simp only at hres
    have hres2 := (Option.some.inj hres).symm
    subst hres2
    simp only at hs
    rw [lookupA_map_entry] at hs
    rcases h2 : lookupA (finalizeResourceMetrics st.function_stats) f with _ | s1
    · rw [h2] at hs
      simp at hs
    · rw [h2] at hs
      simp only [Option.map_some', Option.some.injEq] at hs
      rw [← hs]
      simp only
      rw [callerChildren_lookup]
  · rw [stop, if_pos (by simp [hact])] at hres
    simp at hres

/-- Witness for C1: stopping `stW` (where `a` has 3000 ms inclusive and one
outgoing edge of 1000 ms) finalizes `a`'s exclusive time to 2000 ms. -/
theorem stop_self_time_witness :
    sWA.self_time_ms = sWA.total_time_ms - edgeCallerSum resW.call_edges keyA :=
  stop_self_time stW 10 resW (by decide) keyA sWA (by decide)

/-! ## C4: the ignore policy -/

/-- C4 (amended).  The tracer excludes a `FunctionKey` if and only if
(a) stdlib-collapsing is enabled and the *filename contains an angle
bracket* (the synthetic-frame marker — not the full standard-library
classification of `_check_stdlib`), or (b) its module starts with the
profiler's own package prefix, or (c) its file path or module name contains
a configured ignore-substring. -/
theorem shouldIgnore_characterization (cfg : PipelineScopeConfig) (k : FunctionKey) :
    shouldIgnore cfg k = true ↔
      (cfg.collapse_stdlib = true ∧
        (strContainsChar k.filename '<' = true ∨ strContainsChar k.filename '>' = true)) ∨
      strStartsWith k.module "pipelinescope." = true ∨
      ∃ ig ∈ cfg.ignore_modules,
        (strContains k.filename ig = true ∨ strContains k.module ig = true) := by
  rw [shouldIgnore]
  split
  · rename_i h
    simp only [Bool.and_eq_true, Bool.or_eq_true] at h
    simp [h]
  · rename_i h
    simp only [Bool.and_eq_true, Bool.or_eq_true, not_and, not_or] at h
    split
    · rename_i h2
      simp [h2]
    · rename_i h2
      rw [List.any_eq_true]
      simp only [Bool.or_eq_true]
      constructor
      · intro hex
        right
        right
        exact hex
      · rintro (⟨hc, hor⟩ | hpre | hex)
        · rcases hor with h3 | h3 <;> simp [hc, h3] at h
        · exact absurd hpre h2
        · exact hex

/-- Counterexample for C4 as stated: `jsonKey` is classified
standard-library by `_check_stdlib` (its module base `json` is in the
stdlib table) and stdlib-collapsing is enabled, so the claim's
characterization says it is excluded — but `_should_ignore` only checks for
angle brackets in the filename and keeps tracking it. -/
theorem shouldIgnore_classification_cex :
    ¬ (shouldIgnore cfgX jsonKey = true ↔
        (cfgX.collapse_stdlib = true ∧ FunctionKey.checkStdlib jsonKey = true) ∨
        strStartsWith jsonKey.module "pipelinescope." = true ∨
        ∃ ig ∈ cfgX.ignore_modules,
          (strContains jsonKey.filename ig = true ∨ strContains jsonKey.module ig = true)) := by
  decide

/-! ## C5: resource-sample folding on return -/

theorem retStats_resources (s : FunctionStats) (el : ℚ) :
    (retStats s el).resource_samples = [] ∧
    (retStats s el).call_count = s.call_count ∧
    (retStats s el).total_time_ms = s.total_time_ms + el ∧
    (∀ last, s.resource_samples.getLast? = some last →
      (retStats s el).peak_memory_mb = max s.peak_memory_mb last.memory_mb ∧
      (s.avg_cpu_percent = 0 →
        (retStats s el).avg_cpu_percent =
          (s.resource_samples.map fun x => x.cpu_percent).sum /
            (s.resource_samples.length : ℚ)) ∧
      (s.avg_cpu_percent ≠ 0 → (retStats s el).avg_cpu_percent = s.avg_cpu_percent)) ∧
    (s.resource_samples = [] →
      (retStats s el).peak_memory_mb = s.peak_memory_mb ∧
      (retStats s el).avg_cpu_percent = s.avg_cpu_percent) := by
  rcases hlast : s.resource_samples.getLast? with _ | snap
  · have hret : retStats s el =
        { s with
          total_time_ms := s.total_time_ms + el
          active_calls := s.active_calls - 1
          resource_samples := [] } := by
      rw [retStats]
      simp only [hlast]
    rw [hret]
    refine ⟨rfl, rfl, rfl, ?_, fun _ => ⟨rfl, rfl⟩⟩
    intro last hl
    exact absurd hl (by simp)
  · have hne : s.resource_samples ≠ [] := by
      intro h0
      rw [h0] at hlast
      simp at hlast
    by_cases hz : s.avg_cpu_percent = 0
    · have hret : retStats s el =
          { s with
            total_time_ms := s.total_time_ms + el
            active_calls := s.active_calls - 1
            peak_memory_mb := max s.peak_memory_mb snap.memory_mb
            avg_cpu_percent :=
              (s.resource_samples.map fun x : ResourceSnapshot => x.cpu_percent).sum /
                (s.resource_samples.length : ℚ)
            resource_samples := [] } := by
        rw [retStats]
        simp only [hlast, if_pos hz]
      rw [hret]
      refine ⟨rfl, rfl, rfl, ?_, fun h0 => absurd h0 hne⟩
      intro last hl
      cases hl
      exact ⟨rfl, fun _ => rfl, fun hnz => absurd hz hnz⟩
    · have hret : retStats s el =
          { s with
            total_time_ms := s.total_time_ms + el
            active_calls := s.active_calls - 1
            peak_memory_mb := max s.peak_memory_mb snap.memory_mb
            resource_samples := [] } := by
        rw [retStats]
        simp only [hlast, if_neg hz]
      rw [hret]
      refine ⟨rfl, rfl, rfl, ?_, fun h0 => absurd h0 hne⟩
      intro last hl
      cases hl
      exact ⟨rfl, fun hz2 => absurd hz2 hz, fun _ => rfl⟩

/-- The shape of `_on_return` on a tracked popped frame: the popped
function's aggregate is replaced by its `retStats` update, the stack loses
its top frame, and the configuration is unchanged. -/
theorem onReturn_stats_eq (st : ProfilerState) (f : FunctionKey) (t0 t : ℚ)
    (rest : List (FunctionKey × ℚ)) (s : FunctionStats)
    (hstack : st.call_stack = (f, t0) :: rest)
    (hs : lookupA st.function_stats f = some s) :
    (onReturn st t).function_stats =
      setA st.function_stats f (retStats s ((t - t0) * 1000)) ∧
    (onReturn st t).call_stack = rest ∧
    (onReturn st t).config = st.config := by
  obtain ⟨cfg, act, fs, edges, stack, ta, tb⟩ := st
  simp only at hstack hs
  subst hstack
  simp only [onReturn, hs]
  rcases rest with _ | ⟨p, r2⟩
  · exact ⟨by trivial, by trivial, by trivial⟩
  · rcases hE : lookupA edges (p.1, f) with _ | e
    · simp only [hE]
      exact ⟨by trivial, by trivial, by trivial⟩
    · simp only [hE]
      exact ⟨by trivial, by trivial, by trivial⟩

/-- C5 (amended).  On a return event popping a tracked function `f`, the
per-invocation sample buffer is cleared in every case; when the buffer was
non-empty, `peak_memory_mb` becomes the maximum of its previous value and
the memory of the *most recent* buffered sample (hence never decreases; the
other buffered samples' memory values are ignored), and `avg_cpu_percent`
is set to the mean of all buffered samples' CPU values when it is still at
its initial value 0, otherwise kept. -/
theorem onReturn_resource_finalization (st : ProfilerState) (f : FunctionKey)
    (t0 t : ℚ) (rest : List (FunctionKey × ℚ)) (s : FunctionStats)
    (hstack : st.call_stack = (f, t0) :: rest)
    (hs : lookupA st.function_stats f = some s) :
    ∃ s2, lookupA (onReturn st t).function_stats f = some s2 ∧
      s2.resource_samples = [] ∧
      (∀ last, s.resource_samples.getLast? = some last →
        s2.peak_memory_mb = max s.peak_memory_mb last.memory_mb ∧
        s.peak_memory_mb ≤ s2.peak_memory_mb ∧
        (s.avg_cpu_percent = 0 →
          s2.avg_cpu_percent =
            (s.resource_samples.map fun x => x.cpu_percent).sum /
              (s.resource_samples.length : ℚ)) ∧
        (s.avg_cpu_percent ≠ 0 → s2.avg_cpu_percent = s.avg_cpu_percent)) ∧
      (s.resource_samples = [] →
        s2.peak_memory_mb = s.peak_memory_mb ∧
        s2.avg_cpu_percent = s.avg_cpu_percent) := by
  obtain ⟨hfs, -, -⟩ := onReturn_stats_eq st f t0 t rest s hstack hs
  obtain ⟨hclear, -, -, hlast, hempty⟩ := retStats_resources s ((t - t0) * 1000)
  refine ⟨retStats s ((t - t0) * 1000), ?_, hclear, ?_, hempty⟩
  · rw [hfs, lookupA_setA_self]
  · intro last hl
    obtain ⟨hp, hcpu0, hcpu1⟩ := hlast last hl
    exact ⟨hp, hp ▸ le_max_left _ _, hcpu0, hcpu1⟩

/-- The first hundred calls of the deep-recursion trace land exactly on the
checkpoint state `mid5`. -/
theorem run5_chunk1 :
    runEvents (start (initState cfgX) 0)
      ((List.range 100).map fun (i : Nat) => TraceEvent.call keyF ((i : ℚ)) (snapOf i)) =
    mid5 := by
  set_option maxRecDepth 10000 in decide

/-- `run5` factors through the checkpoint. -/
theorem run5_split : run5 = runEvents mid5 chunk2 := by
  rw [run5, show (200 : Nat) = 100 + 100 from rfl, List.range_add, List.map_append,
    runEvents, List.foldl_append, ← runEvents, ← runEvents, run5_chunk1, chunk2,
    List.map_map]
  rfl

/-- Witness for C5's amended theorem: the deep-recursion trace `run5`
(sample buffer `[50 MB, 10 MB]`) returned at time 200. -/
theorem onReturn_resource_finalization_witness :
    ∃ s2, lookupA (onReturn run5 200).function_stats keyF = some s2 ∧
      s2.resource_samples = [] ∧
      (∀ last,
        ((lookupA run5.function_stats keyF).getD { key := keyF }).resource_samples.getLast? =
          some last →
        s2.peak_memory_mb =
          max ((lookupA run5.function_stats keyF).getD { key := keyF }).peak_memory_mb
            last.memory_mb ∧
        ((lookupA run5.function_stats keyF).getD { key := keyF }).peak_memory_mb ≤
          s2.peak_memory_mb ∧
        (((lookupA run5.function_stats keyF).getD { key := keyF }).avg_cpu_percent = 0 →
          s2.avg_cpu_percent =
            (((lookupA run5.function_stats keyF).getD { key := keyF }).resource_samples.map
              fun x => x.cpu_percent).sum /
              ((((lookupA run5.function_stats keyF).getD
                { key := keyF }).resource_samples.length : ℚ))) ∧
        (((lookupA run5.function_stats keyF).getD { key := keyF }).avg_cpu_percent ≠ 0 →
          s2.avg_cpu_percent =
            ((lookupA run5.function_stats keyF).getD { key := keyF }).avg_cpu_percent)) ∧
      (((lookupA run5.function_stats keyF).getD { key := keyF }).resource_samples = [] →
        s2.peak_memory_mb =
          ((lookupA run5.function_stats keyF).getD { key := keyF }).peak_memory_mb ∧
        s2.avg_cpu_percent =
          ((lookupA run5.function_stats keyF).getD { key := keyF }).avg_cpu_percent) :=
  onReturn_resource_finalization run5 keyF 199 200
    ((List.range 199).reverse.map fun i => (keyF, (i : ℚ)))
    ((lookupA run5.function_stats keyF).getD { key := keyF })
    (by rw [run5_split]
        set_option maxRecDepth 10000 in decide)
    (by rw [run5_split]
        set_option maxRecDepth 10000 in decide)

/-- Counterexample for C5 as stated: in the reachable state `run5` the
buffer holds two samples, 50 MB then 10 MB; the claim's "maximum over all
buffered samples" is 50, but the return handler folds in only the most
recent sample and records a peak of 10 MB. -/
theorem onReturn_peak_not_max_of_all_cex :
    (lookupA run5.function_stats keyF).map
        (fun s => s.resource_samples.map fun x => x.memory_mb) = some [50, 10] ∧
    (lookupA run5.function_stats keyF).map (fun s => s.peak_memory_mb) = some 0 ∧
    (lookupA (onReturn run5 200).function_stats keyF).map
        (fun s => s.peak_memory_mb) = some 10 := by
  rw [run5_split]
  refine ⟨?_, ?_, ?_⟩ <;> set_option maxRecDepth 10000 in decide

/-! ## C2: hotspot extraction -/

/-- C2 fails on the code (code bug): over the spec's own scenario — ten
eligible functions with strictly decreasing projected self times 1000 ms
down to 100 ms — `extract_hotspots` with `top_n = 5` returns the five
*smallest* projected self times, sorted descending, because pushing
`(-projected_self_time, …)` onto `heapq`'s min-heap and popping the minimum
evicts the largest value instead of the smallest.  The claim (and the spec)
expect the five largest, `[1000, 900, 800, 700, 600]`. -/
theorem extract_hotspots_keeps_smallest :
    ((exTest.map fun p => p.2.projected_self_time_ms) =
      [1000, 900, 800, 700, 600, 500, 400, 300, 200, 100]) ∧
    (fsTest.map fun p => shouldIncludeFunction p.1) = List.replicate 10 true ∧
    ((extract_hotspots fsTest exTest 5).map fun h => h.projected_self_time_ms) =
      [500, 400, 300, 200, 100] ∧
    ((extract_hotspots fsTest exTest 5).map fun h => h.func_key.funcname) =
      ["func5", "func6", "func7", "func8", "func9"] := by
  refine ⟨?_, ?_, ?_, ?_⟩ <;> decide

/-! ## C3: invisibility of ignored calls -/

/-- An ignored call event leaves the profiler state unchanged. -/
theorem onCall_ignored (st : ProfilerState) (f : FunctionKey) (t : ℚ)
    (snap : ResourceSnapshot) (hig : shouldIgnore st.config f = true) :
    onCall st f t snap = st := by
  rw [onCall, if_pos hig]

/-- The shape of `_on_call` on a tracked callee: the callee's aggregate is
replaced by its `callStats` update, the frame is pushed, and the
configuration is unchanged. -/
theorem onCall_tracked (st : ProfilerState) (f : FunctionKey) (t : ℚ)
    (snap : ResourceSnapshot) (hig : shouldIgnore st.config f = false) :
    (onCall st f t snap).function_stats =
      setA st.function_stats f
        (callStats ((lookupA st.function_stats f).getD { key := f }) t snap) ∧
    (onCall st f t snap).call_stack = (f, t) :: st.call_stack ∧
    (onCall st f t snap).config = st.config := by
  rw [onCall, if_neg (by rw [hig]; simp)]
  rcases hstack : st.call_stack with _ | ⟨p, r⟩
  · simp [hstack]
  · simp only [hstack]
    rcases hE : lookupA st.call_edges (p.1, f) with _ | e0
    · simp [hE, lookupA_setA_self]
    · simp [hE]

theorem onCall_edges_shape (st : ProfilerState) (f : FunctionKey) (t : ℚ)
    (snap : ResourceSnapshot) :
    ∀ e ∈ (onCall st f t snap).call_edges,
      e ∈ st.call_edges ∨ ∃ p ∈ st.call_stack, e.1.1 = p.1 ∧ e.1.2 = f := by
  intro e he
  rw [onCall] at he
  split at he
  · exact Or.inl he
  · rcases hstack : st.call_stack with _ | ⟨p, r⟩
    · simp only [hstack] at he
      exact Or.inl he
    · simp only [hstack] at he
      rcases hE : lookupA st.call_edges (p.1, f) with _ | e0
      · simp only [hE, lookupA_setA_self] at he
        rcases mem_setA _ _ _ _ he with h1 | h1
        · refine Or.inr ⟨p, List.mem_cons_self _ _, ?_, ?_⟩ <;> rw [h1]
        · rcases mem_setA _ _ _ _ h1 with h2 | h2
          · refine Or.inr ⟨p, List.mem_cons_self _ _, ?_, ?_⟩ <;> rw [h2]
          · exact Or.inl h2
      · simp only [hE] at he
        rcases mem_setA _ _ _ _ he with h1 | h1
        · refine Or.inr ⟨p, List.mem_cons_self _ _, ?_, ?_⟩ <;> rw [h1]
        · exact Or.inl h1

theorem onReturn_NoTrace (st : ProfilerState) (t : ℚ) (f : FunctionKey)
    (h : NoTrace st f) : NoTrace (onReturn st t) f := by
  obtain ⟨hfs, hed, hstk⟩ := h
  rw [onReturn]
  rcases hstack : st.call_stack with _ | ⟨⟨g, t0⟩, rest⟩
  · exact ⟨hfs, hed, hstk⟩
  · have hgf : g ≠ f := hstk (g, t0) (by rw [hstack]; exact List.mem_cons_self _ _)
    have hrest : ∀ fr ∈ rest, fr.1 ≠ f := fun fr hfr =>
      hstk fr (by rw [hstack]; exact List.mem_cons_of_mem _ hfr)
    rcases hg : lookupA st.function_stats g with _ | sg
    · simp only [hg]
      exact ⟨hfs, hed, hrest⟩
    · simp only [hg]
      rcases rest with _ | ⟨q, r2⟩
    
      · refine ⟨?_, hed, by intro fr hfr; exact absurd hfr (List.not_mem_nil fr)⟩
        rw [lookupA_setA_ne _ _ _ _ (fun hf => hgf hf.symm)]
        exact hfs
      · have hq : q.1 ≠ f := hrest q (List.mem_cons_self _ _)
        rcases hE : lookupA st.call_edges (q.1, g) with _ | e0
        · simp only [hE]
          refine ⟨?_, hed, hrest⟩
          rw [lookupA_setA_ne _ _ _ _ (fun hf => hgf hf.symm)]
          exact hfs
        · simp only [hE]
          refine ⟨?_, ?_, hrest⟩
          · rw [lookupA_setA_ne _ _ _ _ (fun hf => hgf hf.symm)]
            exact hfs
          · intro e he
            rcases mem_setA _ _ _ _ he with h1 | h1
            · rw [h1]
              exact ⟨hq, hgf⟩
            · exact hed e h1
theorem onReturn_config (st : ProfilerState) (t : ℚ) :
    (onReturn st t).config = st.config := by
  rw [onReturn]
  rcases hstack : st.call_stack with _ | ⟨⟨g, t0⟩, rest⟩
  · rfl
  · rcases hg : lookupA st.function_stats g with _ | sg
    · simp only [hg]
    · simp only [hg]
      rcases rest with _ | ⟨q, r2⟩
      · rfl
      · rcases hE : lookupA st.call_edges (q.1, g) with _ | e0
        · simp only [hE]
        · simp only [hE]

theorem onCall_NoTrace (st : ProfilerState) (g : FunctionKey) (t : ℚ)
    (snap : ResourceSnapshot) (f : FunctionKey)
    (hig : shouldIgnore st.config f = true) (h : NoTrace st f) :
    NoTrace (onCall st g t snap) f := by
  by_cases hg : shouldIgnore st.config g = true
  · rw [onCall_ignored st g t snap hg]
    exact h
  · have hg2 : shouldIgnore st.config g = false := by
      revert hg
      cases shouldIgnore st.config g <;> simp
    have hgf : g ≠ f := by
      intro he
      rw [he, hig] at hg2
      exact absurd hg2 (by simp)
    obtain ⟨hfs2, hstk2, hcfg2⟩ := onCall_tracked st g t snap hg2
    obtain ⟨hfs, hed, hstk⟩ := h
    refine ⟨?_, ?_, ?_⟩
    · rw [hfs2, lookupA_setA_ne _ _ _ _ (fun hf => hgf hf.symm)]
      exact hfs
    · intro e he
      rcases onCall_edges_shape st g t snap e he with h1 | ⟨p, hp, hp1, hp2⟩
      · exact hed e h1
      · exact ⟨hp1 ▸ hstk p hp, hp2 ▸ hgf⟩
    · rw [hstk2]
      intro fr hfr
      rcases List.mem_cons.mp hfr with h1 | h1
      · rw [h1]
        exact hgf
      · exact hstk fr h1

theorem stepEvent_config (st : ProfilerState) (e : TraceEvent) :
    (stepEvent st e).config = st.config := by
  cases e with
  | call g t snap =>
    by_cases hg : shouldIgnore st.config g = true
    · rw [stepEvent, onCall_ignored _ _ _ _ hg]
    · have hg2 : shouldIgnore st.config g = false := by
        revert hg
        cases shouldIgnore st.config g <;> simp
      exact (onCall_tracked st g t snap hg2).2.2
  | ret t => exact onReturn_config st t

theorem stepEvent_NoTrace (st : ProfilerState) (e : TraceEvent) (f : FunctionKey)
    (hig : shouldIgnore st.config f = true) (h : NoTrace st f) :
    NoTrace (stepEvent st e) f := by
  cases e with
  | call g t snap => exact onCall_NoTrace st g t snap f hig h
  | ret t => exact onReturn_NoTrace st t f h

theorem runEvents_NoTrace (evs : List TraceEvent) (f : FunctionKey) :
    ∀ st : ProfilerState, shouldIgnore st.config f = true → NoTrace st f →
      NoTrace (runEvents st evs) f := by
  induction evs with
  | nil => exact fun st _ h => h
  | cons e rest ih =>
    intro st hig h
    exact ih (stepEvent st e)
      (by rw [stepEvent_config]; exact hig)
      (stepEvent_NoTrace st e f hig h)

/-- C3 (amended).  A call whose identity matches the ignore policy never
appears as a key in the aggregate map and never as the caller or callee of
any call edge, and the ignored call event itself leaves the profiler state
unchanged (it is not pushed onto the stack).  The original claim's further
assertion — that the ignored call's elapsed time is excluded from its
caller's total/self attribution — fails: see the counterexample. -/
theorem ignored_call_invisible (cfg : PipelineScopeConfig) (t0 : ℚ)
    (evs : List TraceEvent) (f : FunctionKey) (hig : shouldIgnore cfg f = true) :
    lookupA (runEvents (start (initState cfg) t0) evs).function_stats f = none ∧
    (∀ e ∈ (runEvents (start (initState cfg) t0) evs).call_edges,
      e.1.1 ≠ f ∧ e.1.2 ≠ f) ∧
    (∀ (st : ProfilerState) (t : ℚ) (snap : ResourceSnapshot),
      shouldIgnore st.config f = true → onCall st f t snap = st) := by
  have hbase : NoTrace (start (initState cfg) t0) f := by
    refine ⟨rfl, ?_, ?_⟩
    · intro e he
      rw [start, initState] at he
      simp at he
    · intro fr hfr
      rw [start, initState] at hfr
      simp at hfr
  have hcfg : (start (initState cfg) t0).config = cfg := by
    rw [start, initState]
    simp
  obtain ⟨h1, h2, h3⟩ :=
    runEvents_NoTrace evs f (start (initState cfg) t0) (by rw [hcfg]; exact hig) hbase
  exact ⟨h1, h2, fun st t snap hst => onCall_ignored st f t snap hst⟩

/-- Witness for C3's amended theorem: in the trace where tracked `a` calls
the ignored profiler-internal `keyI`, `keyI` ends up nowhere in the
result. -/
theorem ignored_call_invisible_witness :
    lookupA
        (runEvents (start (initState cfgX) 0)
          [.call keyA 0 snap0, .call keyI 1 snap0, .ret 2, .ret 3]).function_stats keyI =
      none ∧
    (∀ e ∈ (runEvents (start (initState cfgX) 0)
        [.call keyA 0 snap0, .call keyI 1 snap0, .ret 2, .ret 3]).call_edges,
      e.1.1 ≠ keyI ∧ e.1.2 ≠ keyI) ∧
    (∀ (st : ProfilerState) (t : ℚ) (snap : ResourceSnapshot),
      shouldIgnore st.config keyI = true → onCall st keyI t snap = st) :=
  ignored_call_invisible cfgX 0
    [.call keyA 0 snap0, .call keyI 1 snap0, .ret 2, .ret 3] keyI (by decide)

/-- Counterexample for C3 as stated: the runtime delivers a return event for
the ignored call too, and that return pops the *caller's* frame.  In `run1`
(`a` called at 0, ignored `keyI` called at 1 and returning at 2, `a`
returning at 3) the caller `a` is credited 2000 ms — the interval [0, 2],
which contains the ignored call's elapsed interval [1, 2] — while the same
trace without the ignored call (`run2`) credits `a` 3000 ms.  The ignored
call's elapsed time is therefore not excluded from the caller's total/self
attribution; instead it truncates the caller's measurement. -/
theorem ignored_time_attribution_cex :
    shouldIgnore cfgX keyI = true ∧
    (lookupA run1.function_stats keyA).map (fun s => s.total_time_ms) = some 2000 ∧
    (lookupA run2.function_stats keyA).map (fun s => s.total_time_ms) = some 3000 ∧
    ((stop run1 3).2.map fun r =>
      (lookupA r.function_stats keyA).map fun s => s.self_time_ms) = some (some 2000) := by
  refine ⟨by decide, by decide, by decide, by decide⟩

/-! ## C9: recursion accumulates per stack frame -/

theorem callStats_count_total (s : FunctionStats) (t : ℚ) (snap : ResourceSnapshot) :
    (callStats s t snap).call_count = s.call_count + 1 ∧
    (callStats s t snap).total_time_ms = s.total_time_ms := by
  simp only [callStats]
  split <;> split <;> exact ⟨rfl, rfl⟩

theorem runCalls (kf : FunctionKey) (snap : ResourceSnapshot) (ts : List ℚ) :
    ∀ st : ProfilerState, shouldIgnore st.config kf = false →
      countOf (runEvents st (ts.map fun t => TraceEvent.call kf t snap)).function_stats kf =
        countOf st.function_stats kf + ts.length ∧
      totalOf (runEvents st (ts.map fun t => TraceEvent.call kf t snap)).function_stats kf =
        totalOf st.function_stats kf ∧
      (runEvents st (ts.map fun t => TraceEvent.call kf t snap)).call_stack =
        (ts.reverse.map fun t => (kf, t)) ++ st.call_stack ∧
      (runEvents st (ts.map fun t => TraceEvent.call kf t snap)).config = st.config ∧
      (ts = [] ∨
        (lookupA (runEvents st (ts.map fun t => TraceEvent.call kf t snap)).function_stats
          kf).isSome = true) := by
  induction ts with
  | nil =>
    intro st hig
    exact ⟨by simp [runEvents], by simp [runEvents], by simp [runEvents],
      by simp [runEvents], Or.inl rfl⟩
  | cons t ts ih =>
    intro st hig
    obtain ⟨hfs2, hstk2, hcfg2⟩ := onCall_tracked st kf t snap hig
    have hrun : runEvents st ((t :: ts).map fun t2 => TraceEvent.call kf t2 snap) =
        runEvents (onCall st kf t snap) (ts.map fun t2 => TraceEvent.call kf t2 snap) := rfl
    obtain ⟨ihc, iht, ihs, ihcfg, ihsome⟩ :=
      ih (onCall st kf t snap) (by rw [hcfg2]; exact hig)
    have hlook : lookupA (onCall st kf t snap).function_stats kf =
        some (callStats ((lookupA st.function_stats kf).getD { key := kf }) t snap) := by
      rw [hfs2, lookupA_setA_self]
    have hcount2 : countOf (onCall st kf t snap).function_stats kf =
        countOf st.function_stats kf + 1 := by
      rw [countOf, hlook]
      exact (callStats_count_total _ t snap).1
    have htotal2 : totalOf (onCall st kf t snap).function_stats kf =
        totalOf st.function_stats kf := by
      rw [totalOf, hlook]
      exact (callStats_count_total _ t snap).2
    refine ⟨?_, ?_, ?_, ?_, ?_⟩
    · rw [hrun, ihc, hcount2, List.length_cons]
      omega
    · rw [hrun, iht, htotal2]
    · rw [hrun, ihs, hstk2, List.reverse_cons, List.map_append, List.append_assoc]
      rfl
    · rw [hrun, ihcfg, hcfg2]
    · right
      rcases ihsome with hnil | hsome
      · subst hnil
        rw [hrun, runEvents, List.map_nil, List.foldl_nil, hlook]
        rfl
      · rw [hrun]
        exact hsome
theorem runRets (kf : FunctionKey) (ps : List (ℚ × ℚ)) :
    ∀ (st : ProfilerState) (σ : List (FunctionKey × ℚ)) (s : FunctionStats),
      st.call_stack = (ps.map fun p => (kf, p.2)) ++ σ →
      lookupA st.function_stats kf = some s →
      ∃ s2,
        lookupA (runEvents st (ps.map fun p => TraceEvent.ret p.1)).function_stats kf =
          some s2 ∧
        s2.call_count = s.call_count ∧
        s2.total_time_ms =
          s.total_time_ms + ((ps.map fun p => (p.1 - p.2) * 1000)).sum ∧
        (runEvents st (ps.map fun p => TraceEvent.ret p.1)).call_stack = σ := by
  induction ps with
  | nil =>
    intro st σ s hstack hs
    exact ⟨s, hs, rfl, by simp, by simpa using hstack⟩
  | cons p ps ih =>
    intro st σ s hstack hs
    obtain ⟨hfs2, hstk2, hcfg2⟩ :=
      onReturn_stats_eq st kf p.2 p.1 ((ps.map fun q => (kf, q.2)) ++ σ) s
        (by simpa using hstack) hs
    have hrun : runEvents st ((p :: ps).map fun q => TraceEvent.ret q.1) =
        runEvents (onReturn st p.1) (ps.map fun q => TraceEvent.ret q.1) := rfl
    have hlook2 : lookupA (onReturn st p.1).function_stats kf =
        some (retStats s ((p.1 - p.2) * 1000)) := by
      rw [hfs2, lookupA_setA_self]
    obtain ⟨-, hcnt, htot, -, -⟩ := retStats_resources s ((p.1 - p.2) * 1000)
    obtain ⟨s2, h1, h2, h3, h4⟩ :=
      ih (onReturn st p.1) σ (retStats s ((p.1 - p.2) * 1000)) hstk2 hlook2
    refine ⟨s2, by rw [hrun]; exact h1, by rw [h2, hcnt], ?_, by rw [hrun]; exact h4⟩
    rw [h3, htot, List.map_cons, List.sum_cons]
    ring

/-- C9.  Profiling a self-recursive function applied at depth `n` (so
`n + 1` nested invocations, the `i`-th spanning `c i` to `r i`) records
`call_count = n + 1`, and `total_time_ms` is the sum of every stack frame's
own elapsed time, each added independently with no deduplication of the
recursive overlap. -/
theorem recursive_total_time (cfg : PipelineScopeConfig) (kf : FunctionKey)
    (snap : ResourceSnapshot) (t0 : ℚ) (c r : Nat → ℚ) (n : Nat)
    (hig : shouldIgnore cfg kf = false) :
    ∃ s,
      lookupA (runEvents (start (initState cfg) t0)
        (factEvents kf n c r snap)).function_stats kf = some s ∧
      s.call_count = n + 1 ∧
      s.total_time_ms = ((List.range (n + 1)).map fun i => (r i - c i) * 1000).sum := by
  have hsplit : runEvents (start (initState cfg) t0) (factEvents kf n c r snap) =
      runEvents
        (runEvents (start (initState cfg) t0)
          ((List.range (n + 1)).map fun i => TraceEvent.call kf (c i) snap))
        ((List.range (n + 1)).reverse.map fun i => TraceEvent.ret (r i)) := by
    rw [factEvents, runEvents, List.foldl_append]
    rfl
  have hcfg0 : (start (initState cfg) t0).config = cfg := by
    rw [start, initState]
    simp
  have hmap1 : ((List.range (n + 1)).map fun i => TraceEvent.call kf (c i) snap) =
      (((List.range (n + 1)).map c).map fun t => TraceEvent.call kf t snap) := by
    rw [List.map_map]
    rfl
  obtain ⟨hc1, ht1, hs1, hcfg1, hsome1⟩ :=
    runCalls kf snap ((List.range (n + 1)).map c) (start (initState cfg) t0)
      (by rw [hcfg0]; exact hig)
  rw [← hmap1] at hc1 ht1 hs1 hcfg1 hsome1
  have hne : (List.range (n + 1)).map c ≠ [] := by
    simp [List.range_succ]
  rcases hsome1 with hnil | hsome
  · exact absurd hnil hne
  · set st1 := runEvents (start (initState cfg) t0)
      ((List.range (n + 1)).map fun i => TraceEvent.call kf (c i) snap) with hst1
    obtain ⟨s1, hs1look⟩ := Option.isSome_iff_exists.mp hsome
    have hcount1 : s1.call_count = n + 1 := by
      have : countOf st1.function_stats kf = 0 + ((List.range (n + 1)).map c).length := by
        rw [hc1]
        rfl
      rw [countOf, hs1look] at this
      simpa using this
    have htotal1 : s1.total_time_ms = 0 := by
      have : totalOf st1.function_stats kf = totalOf (start (initState cfg) t0).function_stats kf := ht1
      rw [totalOf, hs1look] at this
      simpa [totalOf, start, initState, lookupA] using this
    have hstack1 : st1.call_stack =
        (((List.range (n + 1)).reverse.map fun i => (r i, c i)).map fun p => (kf, p.2)) ++ [] := by
      rw [hs1]
      simp only [start, initState]
      rw [List.map_map, ← List.map_reverse, List.map_map]
      rfl
    have hrets : ((List.range (n + 1)).reverse.map fun i => TraceEvent.ret (r i)) =
        (((List.range (n + 1)).reverse.map fun i => (r i, c i)).map
          fun p => TraceEvent.ret p.1) := by
      rw [List.map_map]
      rfl
    obtain ⟨s2, h1, h2, h3, h4⟩ :=
      runRets kf ((List.range (n + 1)).reverse.map fun i => (r i, c i)) st1 [] s1
        hstack1 hs1look
    refine ⟨s2, ?_, ?_, ?_⟩
    · rw [hsplit, hrets]
      exact h1
    · rw [h2, hcount1]
    · rw [h3, htotal1, zero_add, List.map_map]
      rw [show ((fun p : ℚ × ℚ => (p.1 - p.2) * 1000) ∘ fun i => (r i, c i)) =
        fun i => (r i - c i) * 1000 from rfl]
      rw [List.map_reverse, List.sum_reverse]

/-- Witness for C9: depth 1 (two invocations, frames [0, 20+0·1000] and
[1, 21]) under `cfgX`. -/
theorem recursive_total_time_witness :
    ∃ s,
      lookupA (runEvents (start (initState cfgX) 0)
        (factEvents keyA 1 (fun i => (i : ℚ)) (fun i => (20 + i : ℚ)) snap0)).function_stats
        keyA = some s ∧
      s.call_count = 1 + 1 ∧
      s.total_time_ms =
        ((List.range (1 + 1)).map fun i => ((20 + i : ℚ) - (i : ℚ)) * 1000).sum :=
  recursive_total_time cfgX keyA snap0 0 (fun i => (i : ℚ)) (fun i => (20 + i : ℚ)) 1
    (by decide)

end PipelineScope
